import Mathlib

/-!
Shallow embedding of `midi-clocked-notes.py`: the transport-to-note
translation engine (the `midi_callback` closure of `main`, together with
`send_note_on` and the constants at the top of the file).

Modelling conventions:
* Python integers in the validated configuration range are `Nat`
  (the configuration collaborator supplies channel in 1..16, note numbers
  in 0..127, periods at least 0, per the external-interface contract).
* Timestamps (`time.time()` readings) are `ℚ`.
* A Python `ZeroDivisionError` raised by `%` is `Option.none`: the helper
  `pymod` returns `none` exactly when the right operand is `0`, mirroring
  that Python's `%` raises on a zero modulus.
* The Python truthiness test `if last_clock_time:` is false both for
  `None` and for the float `0.0`; `pyTruthyTime` embeds that test.
-/

namespace MidiClockedNotes

/-- `MIDI_CLOCK = 0xF8` (source line 7). -/
def MIDI_CLOCK : Nat := 0xF8

/-- `MIDI_START = 0xFA` (source line 8). -/
def MIDI_START : Nat := 0xFA

/-- `MIDI_STOP = 0xFC` (source line 9). -/
def MIDI_STOP : Nat := 0xFC

/-- Python `%` on naturals: raises (`none`) when the modulus is zero. -/
def pymod (a b : Nat) : Option Nat :=
  if b = 0 then none else some (a % b)

/-- The resolved configuration consumed by the engine (the fields of
`args` that `midi_callback` and `send_note_on` read). -/
structure Args where
  midi_channel : Nat
  note_bar_1 : Nat
  note_bar_2 : Nat
  note_bar_4 : Nat
  note_bar_8 : Nat
  note_bar_16 : Nat
  note : Nat
  notes_per_bar : Nat
  note_start : Nat
  note_stop : Nat
  show_bpm : Bool
deriving Repr, DecidableEq

/-- The mutable engine state captured by the `midi_callback` closure:
`clock_count`, `bar_count`, `last_clock_time` (source lines 106-108). -/
structure EngineState where
  clock_count : Nat
  bar_count : Nat
  last_clock_time : Option ℚ
deriving Repr, DecidableEq

/-- Initial state: `clock_count = 0`, `bar_count = 0`,
`last_clock_time = None`. -/
def initState : EngineState := ⟨0, 0, none⟩

/-- An incoming transport event: the raw status byte `message[0]` plus the
arrival timestamp (the `time.time()` reading the callback would observe). -/
structure Event where
  status : Nat
  time : ℚ
deriving Repr, DecidableEq

/-- One outgoing 3-byte message `[status, note, velocity]` as built by
`send_note_on`. -/
structure NoteCommand where
  status : Nat
  note : Nat
  velocity : Nat
deriving Repr, DecidableEq

/-- `send_note_on` (source lines 73-75): `status = 0x90 | (channel-1 & 0x0F)`
(Python `&` binds tighter than `|`), message `[status, note, velocity]`.
The `midiout` sink argument is dropped; the function returns the message. -/
def send_note_on (note velocity channel : Nat) : NoteCommand :=
  { status := 0x90 ||| ((channel - 1) &&& 0x0F), note := note, velocity := velocity }

/-- Python truthiness of `last_clock_time`: `if last_clock_time:` is false
for `None` and for `0.0`. -/
def pyTruthyTime : Option ℚ → Bool
  | none => false
  | some t => t ≠ 0

/-- The BPM value printed on a Clock event (source lines 126-129):
when `last_clock_time` is truthy, `delta = now - last_clock_time` and
`bpm = 60.0 / (delta * 24) if delta > 0 else 0` is printed; otherwise
nothing is printed. -/
def bpmPrint (now : ℚ) (last_clock_time : Option ℚ) : Option ℚ :=
  match last_clock_time with
  | none => none
  | some t0 =>
    if t0 = 0 then none
    else
      let delta := now - t0
      some (if delta > 0 then 60 / (delta * 24) else 0)

/-- The notes sent at a bar boundary (source lines 135-146), in source
order: the `notes_per_bar`/`note` rule first, then `note_bar_1`,
`note_bar_2`, `note_bar_4`, `note_bar_8`, `note_bar_16`.  The primary rule
short-circuits: `bar_count % args.notes_per_bar` is evaluated only when
`args.note != 0`, and raises (`none`) when `args.notes_per_bar = 0`. -/
def boundaryNotes (args : Args) (bar_count : Nat) : Option (List NoteCommand) :=
  let l1 := if args.note_bar_1 ≠ 0 then
    [send_note_on args.note_bar_1 100 args.midi_channel] else []
  let l2 := if args.note_bar_2 ≠ 0 ∧ bar_count % 2 = 0 then
    [send_note_on args.note_bar_2 100 args.midi_channel] else []
  let l4 := if args.note_bar_4 ≠ 0 ∧ bar_count % 4 = 0 then
    [send_note_on args.note_bar_4 100 args.midi_channel] else []
  let l8 := if args.note_bar_8 ≠ 0 ∧ bar_count % 8 = 0 then
    [send_note_on args.note_bar_8 100 args.midi_channel] else []
  let l16 := if args.note_bar_16 ≠ 0 ∧ bar_count % 16 = 0 then
    [send_note_on args.note_bar_16 100 args.midi_channel] else []
  if args.note = 0 then
    some (l1 ++ l2 ++ l4 ++ l8 ++ l16)
  else
    match pymod bar_count args.notes_per_bar with
    | none => none
    | some r =>
      some ((if r = 0 then [send_note_on args.note 100 args.midi_channel] else [])
        ++ l1 ++ l2 ++ l4 ++ l8 ++ l16)

/-- `midi_callback` (source lines 116-155) as a pure step: given the
configuration, the derived `clocks_per_bar`, the current state and one
event, it returns `none` when the Python code would raise
`ZeroDivisionError`, and otherwise the new state, the list of notes sent
(in emission order) and the BPM value printed, if any. -/
def midi_callback (args : Args) (clocks_per_bar : Nat) (s : EngineState)
    (event : Event) : Option (EngineState × List NoteCommand × Option ℚ) :=
  if event.status = MIDI_CLOCK then
    let clock_count := s.clock_count + 1
    let bpmOut : Option ℚ :=
      if args.show_bpm then bpmPrint event.time s.last_clock_time else none
    let last_clock_time : Option ℚ :=
      if args.show_bpm then some event.time else s.last_clock_time
    match pymod clock_count clocks_per_bar with
    | none => none
    | some r =>
      if r = 0 then
        let bar_count := s.bar_count + 1
        match boundaryNotes args bar_count with
        | none => none
        | some notes =>
          some ({ clock_count := clock_count, bar_count := bar_count,
                  last_clock_time := last_clock_time }, notes, bpmOut)
      else
        some ({ clock_count := clock_count, bar_count := s.bar_count,
                last_clock_time := last_clock_time }, [], bpmOut)
  else if event.status = MIDI_START then
    some (s, [send_note_on args.note_start 100 args.midi_channel], none)
  else if event.status = MIDI_STOP then
    some (s, [send_note_on args.note_stop 100 args.midi_channel], none)
  else
    some (s, [], none)

/-- Cumulative observable output of a run: the sent notes and the printed
BPM values, each in order. -/
structure RunOut where
  notes : List NoteCommand
  bpms : List ℚ
deriving Repr, DecidableEq

/-- Process a list of events through `midi_callback`, threading the state
and concatenating outputs; `none` as soon as one event raises. -/
def processEvents (args : Args) (clocks_per_bar : Nat) :
    EngineState → List Event → Option (EngineState × RunOut)
  | s, [] => some (s, ⟨[], []⟩)
  | s, e :: rest =>
    match midi_callback args clocks_per_bar s e with
    | none => none
    | some (s', notes, b) =>
      match processEvents args clocks_per_bar s' rest with
      | none => none
      | some (s'', out) => some (s'', ⟨notes ++ out.notes, b.toList ++ out.bpms⟩)

/-- The five fixed bar subdivisions as (period-in-bars, note) pairs, in
source emission order. -/
def subRules (args : Args) : List (Nat × Nat) :=
  [(1, args.note_bar_1), (2, args.note_bar_2), (4, args.note_bar_4),
   (8, args.note_bar_8), (16, args.note_bar_16)]

/-- What one fixed subdivision `(p, n)` contributes at a bar boundary with
the given (already incremented) bar count. -/
def subEmit (channel bar_count p n : Nat) : List NoteCommand :=
  if n ≠ 0 ∧ bar_count % p = 0 then [send_note_on n 100 channel] else []

/-- What the primary `(notes_per_bar, note)` rule contributes at a bar
boundary with the given bar count (empty when disabled by `note = 0`, and
empty when `notes_per_bar = 0` — though in that second case the code
raises rather than emitting nothing). -/
def primEmit (args : Args) (bar_count : Nat) : List NoteCommand :=
  if args.note ≠ 0 ∧ args.notes_per_bar ≠ 0 ∧ bar_count % args.notes_per_bar = 0 then
    [send_note_on args.note 100 args.midi_channel] else []

/-- What one fixed subdivision contributes on a whole Clock step from
state `s`: empty off bar boundaries. -/
def subStepEmit (args : Args) (clocks_per_bar : Nat) (s : EngineState)
    (p n : Nat) : List NoteCommand :=
  if (s.clock_count + 1) % clocks_per_bar = 0 then
    subEmit args.midi_channel (s.bar_count + 1) p n
  else []

/-- What the primary rule contributes on a whole Clock step from state
`s`: empty off bar boundaries. -/
def primStepEmit (args : Args) (clocks_per_bar : Nat) (s : EngineState) :
    List NoteCommand :=
  if (s.clock_count + 1) % clocks_per_bar = 0 then
    primEmit args (s.bar_count + 1)
  else []

/-- Number of Clock events in a list. -/
def countClocks (events : List Event) : Nat :=
  events.countP (fun e => e.status == MIDI_CLOCK)

/-- A concrete configuration with every subdivision enabled
(used to instantiate theorems at concrete inputs). -/
def cfgA : Args :=
  { midi_channel := 15, note_bar_1 := 10, note_bar_2 := 11, note_bar_4 := 12,
    note_bar_8 := 13, note_bar_16 := 14, note := 60, notes_per_bar := 4,
    note_start := 30, note_stop := 31, show_bpm := false }

/-- A concrete configuration with `notes_per_bar = 0` while the primary
note is enabled (`note = 60`). -/
def cfgCrash : Args :=
  { midi_channel := 15, note_bar_1 := 0, note_bar_2 := 0, note_bar_4 := 0,
    note_bar_8 := 0, note_bar_16 := 0, note := 60, notes_per_bar := 0,
    note_start := 30, note_stop := 31, show_bpm := false }

/-- A concrete configuration with BPM display enabled and the primary
rule disabled. -/
def cfgBpm : Args :=
  { midi_channel := 15, note_bar_1 := 0, note_bar_2 := 0, note_bar_4 := 0,
    note_bar_8 := 0, note_bar_16 := 0, note := 0, notes_per_bar := 4,
    note_start := 30, note_stop := 31, show_bpm := true }

/-! ### Helper lemmas about the embedded engine -/

theorem pymod_of_ne_zero {b : Nat} (a : Nat) (hb : b ≠ 0) :
    pymod a b = some (a % b) := by
  simp [pymod, hb]

theorem pymod_zero (a : Nat) : pymod a 0 = none := by
  simp [pymod]

/-- `boundaryNotes` succeeds exactly when the primary rule cannot divide
by zero: `note = 0` (primary disabled) or `notes_per_bar ≠ 0`. -/
theorem boundaryNotes_eq_none_iff (args : Args) (bc : Nat) :
    boundaryNotes args bc = none ↔ (args.note ≠ 0 ∧ args.notes_per_bar = 0) := by
  by_cases h : args.note = 0
  · simp [boundaryNotes, h]
  · by_cases h' : args.notes_per_bar = 0
    · simp [boundaryNotes, h, h', pymod]
    · simp [boundaryNotes, h, h', pymod_of_ne_zero _ h']

/-- On success, the boundary emission list decomposes as the primary
contribution followed by the five fixed subdivisions in source order. -/
theorem boundaryNotes_eq (args : Args) (bc : Nat)
    (h : args.note = 0 ∨ args.notes_per_bar ≠ 0) :
    boundaryNotes args bc =
      some (primEmit args bc
        ++ (subRules args).flatMap (fun pn => subEmit args.midi_channel bc pn.1 pn.2)) := by
  rcases h with h | h
  · simp [boundaryNotes, h, primEmit, subRules, subEmit, List.flatMap, Nat.mod_one]
  · by_cases hn : args.note = 0
    · simp [boundaryNotes, hn, primEmit, subRules, subEmit, List.flatMap, Nat.mod_one]
    · by_cases hr : bc % args.notes_per_bar = 0
      · simp [boundaryNotes, hn, pymod_of_ne_zero _ h, hr, primEmit, h,
          subRules, subEmit, List.flatMap, Nat.mod_one]
      · simp [boundaryNotes, hn, pymod_of_ne_zero _ h, hr, primEmit, h,
          subRules, subEmit, List.flatMap, Nat.mod_one]

/-- Characterization of a Clock step when `clocks_per_bar ≠ 0`. -/
theorem midi_callback_clock (args : Args) (k : Nat) (s : EngineState) (t : ℚ)
    (hk : k ≠ 0) :
    midi_callback args k s ⟨MIDI_CLOCK, t⟩ =
      if (s.clock_count + 1) % k = 0 then
        (boundaryNotes args (s.bar_count + 1)).map (fun notes =>
          (⟨s.clock_count + 1, s.bar_count + 1,
            if args.show_bpm then some t else s.last_clock_time⟩,
           notes,
           if args.show_bpm then bpmPrint t s.last_clock_time else none))
      else
        some (⟨s.clock_count + 1, s.bar_count,
               if args.show_bpm then some t else s.last_clock_time⟩,
              [],
              if args.show_bpm then bpmPrint t s.last_clock_time else none) := by
  by_cases hb : (s.clock_count + 1) % k = 0
  · cases hbn : boundaryNotes args (s.bar_count + 1) <;>
      simp [midi_callback, pymod_of_ne_zero _ hk, hb, hbn]
  · simp [midi_callback, pymod_of_ne_zero _ hk, hb]

/-- Explicit form of a successful Clock step: the emitted notes are the
primary step contribution followed by the fixed subdivisions' step
contributions. -/
theorem midi_callback_clock_eq (args : Args) (k : Nat) (s : EngineState) (t : ℚ)
    (hk : k ≠ 0) (hok : args.note = 0 ∨ args.notes_per_bar ≠ 0) :
    midi_callback args k s ⟨MIDI_CLOCK, t⟩ =
      some (⟨s.clock_count + 1,
             if (s.clock_count + 1) % k = 0 then s.bar_count + 1 else s.bar_count,
             if args.show_bpm then some t else s.last_clock_time⟩,
            primStepEmit args k s
              ++ (subRules args).flatMap (fun pn => subStepEmit args k s pn.1 pn.2),
            if args.show_bpm then bpmPrint t s.last_clock_time else none) := by
  rw [midi_callback_clock args k s t hk]
  by_cases hb : (s.clock_count + 1) % k = 0
  · simp [hb, boundaryNotes_eq args _ hok, primStepEmit, subStepEmit]
  · simp [hb, primStepEmit, subStepEmit, subRules, List.flatMap]

/-- A Start step: one note, state untouched. -/
theorem midi_callback_start (args : Args) (k : Nat) (s : EngineState) (t : ℚ) :
    midi_callback args k s ⟨MIDI_START, t⟩ =
      some (s, [send_note_on args.note_start 100 args.midi_channel], none) := by
  norm_num [midi_callback, MIDI_CLOCK, MIDI_START]

/-- A Stop step: one note, state untouched. -/
theorem midi_callback_stop (args : Args) (k : Nat) (s : EngineState) (t : ℚ) :
    midi_callback args k s ⟨MIDI_STOP, t⟩ =
      some (s, [send_note_on args.note_stop 100 args.midi_channel], none) := by
  norm_num [midi_callback, MIDI_CLOCK, MIDI_START, MIDI_STOP]

/-- A step on any unrecognized status byte: no note, no print, state
untouched, no error. -/
theorem midi_callback_other (args : Args) (k : Nat) (s : EngineState) (e : Event)
    (h1 : e.status ≠ MIDI_CLOCK) (h2 : e.status ≠ MIDI_START)
    (h3 : e.status ≠ MIDI_STOP) :
    midi_callback args k s e = some (s, [], none) := by
  simp [midi_callback, h1, h2, h3]

/-- Any non-Clock step leaves the state untouched and prints nothing. -/
theorem midi_callback_nonclock (args : Args) (k : Nat) (s : EngineState) (e : Event)
    (h : e.status ≠ MIDI_CLOCK) :
    midi_callback args k s e =
      some (s,
        if e.status = MIDI_START then
          [send_note_on args.note_start 100 args.midi_channel]
        else if e.status = MIDI_STOP then
          [send_note_on args.note_stop 100 args.midi_channel]
        else [], none) := by
  by_cases h2 : e.status = MIDI_START
  · simp [midi_callback, h, h2, MIDI_CLOCK, MIDI_START]
  · by_cases h3 : e.status = MIDI_STOP
    · simp [midi_callback, h, h2, h3, MIDI_CLOCK, MIDI_START, MIDI_STOP]
    · simp [midi_callback, h, h2, h3]

/-- Inversion of a successful Clock step. -/
theorem midi_callback_clock_inv {args : Args} {k : Nat} {s s' : EngineState}
    {t : ℚ} {notes : List NoteCommand} {b : Option ℚ} (hk : k ≠ 0)
    (h : midi_callback args k s ⟨MIDI_CLOCK, t⟩ = some (s', notes, b)) :
    s'.clock_count = s.clock_count + 1
    ∧ s'.last_clock_time = (if args.show_bpm then some t else s.last_clock_time)
    ∧ b = (if args.show_bpm then bpmPrint t s.last_clock_time else none)
    ∧ (((s.clock_count + 1) % k = 0 ∧ s'.bar_count = s.bar_count + 1
          ∧ boundaryNotes args (s.bar_count + 1) = some notes)
       ∨ ((s.clock_count + 1) % k ≠ 0 ∧ s'.bar_count = s.bar_count ∧ notes = [])) := by
  rw [midi_callback_clock args k s t hk] at h
  by_cases hb : (s.clock_count + 1) % k = 0
  · rw [if_pos hb] at h
    cases hbn : boundaryNotes args (s.bar_count + 1) with
    | none => rw [hbn] at h; exact Option.noConfusion h
    | some l =>
      rw [hbn] at h
      simp only [Option.map_some', Option.some.injEq, Prod.mk.injEq] at h
      obtain ⟨h1, h2, h3⟩ := h
      subst h3
      refine ⟨by rw [← h1], by rw [← h1], rfl, Or.inl ⟨hb, by rw [← h1], by rw [← h2]⟩⟩
  · rw [if_neg hb] at h
    simp only [Option.some_inj, Prod.mk.injEq] at h
    obtain ⟨h1, h2, h3⟩ := h
    exact ⟨by rw [← h1], by rw [← h1], h3.symm, Or.inr ⟨hb, by rw [← h1], h2.symm⟩⟩

/-- On any successful Clock step, the emitted notes are exactly the
primary step contribution followed by the fixed subdivisions' ones. -/
theorem midi_callback_clock_notes {args : Args} {k : Nat} {s s' : EngineState}
    {t : ℚ} {notes : List NoteCommand} {b : Option ℚ} (hk : k ≠ 0)
    (h : midi_callback args k s ⟨MIDI_CLOCK, t⟩ = some (s', notes, b)) :
    notes = primStepEmit args k s
      ++ (subRules args).flatMap (fun pn => subStepEmit args k s pn.1 pn.2) := by
  obtain ⟨-, -, -, hcase⟩ := midi_callback_clock_inv hk h
  rcases hcase with ⟨hb, -, hbn⟩ | ⟨hb, -, hnotes⟩
  · have hok : args.note = 0 ∨ args.notes_per_bar ≠ 0 := by
      by_contra hcon
      push_neg at hcon
      rw [(boundaryNotes_eq_none_iff args (s.bar_count + 1)).mpr
        ⟨hcon.1, by omega⟩] at hbn
      exact Option.noConfusion hbn
    rw [boundaryNotes_eq args (s.bar_count + 1) hok] at hbn
    simp only [Option.some_inj] at hbn
    rw [← hbn]
    simp [primStepEmit, subStepEmit, hb]
  · rw [hnotes]
    simp [primStepEmit, subStepEmit, hb, subRules, List.flatMap]

/-- Every element of a boundary emission list is a `send_note_on` of some
nonzero note at velocity 100 on the configured channel. -/
theorem boundaryNotes_mem {args : Args} {bc : Nat} {notes : List NoteCommand}
    (h : boundaryNotes args bc = some notes) :
    ∀ c ∈ notes, ∃ m, m ≠ 0 ∧ c = send_note_on m 100 args.midi_channel := by
  have hok : args.note = 0 ∨ args.notes_per_bar ≠ 0 := by
    by_contra hcon
    push_neg at hcon
    rw [(boundaryNotes_eq_none_iff args bc).mpr ⟨hcon.1, by omega⟩] at h
    exact Option.noConfusion h
  rw [boundaryNotes_eq args bc hok] at h
  simp only [Option.some_inj] at h
  subst h
  intro c hc
  rcases List.mem_append.mp hc with hc | hc
  · refine ⟨args.note, ?_, ?_⟩ <;>
      [skip; skip] <;>
      · unfold primEmit at hc
        split_ifs at hc with hif
        · simp at hc
          first
            | exact hif.1
            | (rw [hc])
        · simp at hc
  · obtain ⟨pn, hpn, hcm⟩ := List.mem_flatMap.mp hc
    refine ⟨pn.2, ?_, ?_⟩ <;>
      · unfold subEmit at hcm
        split_ifs at hcm with hif
        · simp at hcm
          first
            | exact hif.1
            | (rw [hcm])
        · simp at hcm

/-- Every note emitted by any single step is a `send_note_on` of some note
at velocity 100 on the configured channel. -/
theorem midi_callback_notes_shape {args : Args} {k : Nat} {s s' : EngineState}
    {e : Event} {notes : List NoteCommand} {b : Option ℚ}
    (h : midi_callback args k s e = some (s', notes, b)) :
    ∀ c ∈ notes, ∃ m, c = send_note_on m 100 args.midi_channel := by
  obtain ⟨st, t⟩ := e
  by_cases hc : st = MIDI_CLOCK
  · subst hc
    by_cases hk : k = 0
    · subst hk
      simp [midi_callback, pymod] at h
    · obtain ⟨-, -, -, hcase⟩ := midi_callback_clock_inv hk h
      rcases hcase with ⟨-, -, hbn⟩ | ⟨-, -, hnotes⟩
      · intro c hcm
        obtain ⟨m, -, hm⟩ := boundaryNotes_mem hbn c hcm
        exact ⟨m, hm⟩
      · rw [hnotes]
        intro c hcm
        exact absurd hcm (List.not_mem_nil c)
  · rw [midi_callback_nonclock args k s ⟨st, t⟩ hc] at h
    simp only [Option.some.injEq, Prod.mk.injEq] at h
    obtain ⟨-, h2, -⟩ := h
    rw [← h2]
    intro c hcm
    split_ifs at hcm with h3 h4
    · simp at hcm
      exact ⟨args.note_start, by rw [hcm]⟩
    · simp at hcm
      exact ⟨args.note_stop, by rw [hcm]⟩
    · simp at hcm

/-- Every note emitted by a Clock step has a nonzero note number. -/
theorem midi_callback_clock_notes_nonzero {args : Args} {k : Nat}
    {s s' : EngineState} {t : ℚ} {notes : List NoteCommand} {b : Option ℚ}
    (h : midi_callback args k s ⟨MIDI_CLOCK, t⟩ = some (s', notes, b)) :
    ∀ c ∈ notes, c.note ≠ 0 := by
  by_cases hk : k = 0
  · subst hk
    simp [midi_callback, pymod] at h
  · obtain ⟨-, -, -, hcase⟩ := midi_callback_clock_inv hk h
    rcases hcase with ⟨-, -, hbn⟩ | ⟨-, -, hnotes⟩
    · intro c hcm
      obtain ⟨m, hm0, hm⟩ := boundaryNotes_mem hbn c hcm
      rw [hm]
      simpa [send_note_on] using hm0
    · rw [hnotes]
      intro c hcm
      exact absurd hcm (List.not_mem_nil c)

/-- Counter behaviour of a whole run: `clock_count` counts the Clock
events, and the invariant `bar_count = clock_count / k` is preserved. -/
theorem processEvents_counters (args : Args) (k : Nat) (hk : k ≠ 0) :
    ∀ (events : List Event) (s s' : EngineState) (out : RunOut),
      processEvents args k s events = some (s', out) →
      s'.clock_count = s.clock_count + countClocks events
      ∧ (s.bar_count = s.clock_count / k → s'.bar_count = s'.clock_count / k) := by
  intro events
  induction events with
  | nil =>
    intro s s' out h
    rw [processEvents] at h
    simp only [Option.some.injEq, Prod.mk.injEq] at h
    obtain ⟨h1, -⟩ := h
    rw [← h1]
    exact ⟨by simp [countClocks], fun hinv => hinv⟩
  | cons e rest ih =>
    intro s s' out h
    rw [processEvents] at h
    cases hstep : midi_callback args k s e with
    | none => rw [hstep] at h; exact Option.noConfusion h
    | some r =>
      obtain ⟨s1, notes, b⟩ := r
      rw [hstep] at h
      dsimp only at h
      cases hrest : processEvents args k s1 rest with
      | none => rw [hrest] at h; exact Option.noConfusion h
      | some r2 =>
        obtain ⟨s2, out2⟩ := r2
        rw [hrest] at h
        dsimp only at h
        simp only [Option.some.injEq, Prod.mk.injEq] at h
        obtain ⟨h1, -⟩ := h
        obtain ⟨ihc, ihb⟩ := ih s1 s2 out2 hrest
        obtain ⟨st, t⟩ := e
        by_cases hc : st = MIDI_CLOCK
        · subst hc
          obtain ⟨hcc, -, -, hcase⟩ := midi_callback_clock_inv hk hstep
          have hcount : countClocks (⟨MIDI_CLOCK, t⟩ :: rest) = countClocks rest + 1 := by
            simp [countClocks, List.countP_cons]
          constructor
          · rw [← h1, ihc, hcc, hcount]
            omega
          · intro hinv
            rw [← h1]
            refine ihb ?_
            rcases hcase with ⟨hb, hbar, -⟩ | ⟨hb, hbar, -⟩
            · have hdvd : k ∣ s.clock_count + 1 := (Nat.dvd_iff_mod_eq_zero).mpr hb
              rw [hbar, hcc, hinv, Nat.succ_div, if_pos hdvd]
            · have hdvd : ¬ k ∣ s.clock_count + 1 := fun hd => hb (Nat.eq_zero_of_dvd_of_lt hd |> fun _ => by
                exact absurd ((Nat.dvd_iff_mod_eq_zero).mp hd) hb)
              rw [hbar, hcc, hinv, Nat.succ_div, if_neg hdvd]
              omega
        · rw [midi_callback_nonclock args k s ⟨st, t⟩ hc] at hstep
          simp only [Option.some.injEq, Prod.mk.injEq] at hstep
          obtain ⟨hs1, -, -⟩ := hstep
          have hcount : countClocks (⟨st, t⟩ :: rest) = countClocks rest := by
            simp [countClocks, List.countP_cons, hc]
          rw [← h1, hcount, hs1]
          exact ⟨ihc, ihb⟩

/-- Every note emitted by a whole run is a `send_note_on` of some note at
velocity 100 on the configured channel. -/
theorem processEvents_notes_shape (args : Args) (k : Nat) :
    ∀ (events : List Event) (s s' : EngineState) (out : RunOut),
      processEvents args k s events = some (s', out) →
      ∀ c ∈ out.notes, ∃ m, c = send_note_on m 100 args.midi_channel := by
  intro events
  induction events with
  | nil =>
    intro s s' out h
    rw [processEvents] at h
    simp only [Option.some.injEq, Prod.mk.injEq] at h
    obtain ⟨-, h2⟩ := h
    rw [← h2]
    intro c hcm
    exact absurd hcm (List.not_mem_nil c)
  | cons e rest ih =>
    intro s s' out h
    rw [processEvents] at h
    cases hstep : midi_callback args k s e with
    | none => rw [hstep] at h; exact Option.noConfusion h
    | some r =>
      obtain ⟨s1, notes, b⟩ := r
      rw [hstep] at h
      dsimp only at h
      cases hrest : processEvents args k s1 rest with
      | none => rw [hrest] at h; exact Option.noConfusion h
      | some r2 =>
        obtain ⟨s2, out2⟩ := r2
        rw [hrest] at h
        dsimp only at h
        simp only [Option.some.injEq, Prod.mk.injEq] at h
        obtain ⟨-, h2⟩ := h
        rw [← h2]
        intro c hcm
        rcases List.mem_append.mp hcm with hcm | hcm
        · exact midi_callback_notes_shape hstep c hcm
        · exact ih s1 s2 out2 hrest c hcm

/-- In a run made of Clock events only, every emitted note number is
nonzero. -/
theorem processEvents_clock_notes_nonzero (args : Args) (k : Nat) :
    ∀ (events : List Event), (∀ e ∈ events, e.status = MIDI_CLOCK) →
      ∀ (s s' : EngineState) (out : RunOut),
        processEvents args k s events = some (s', out) →
        ∀ c ∈ out.notes, c.note ≠ 0 := by
  intro events
  induction events with
  | nil =>
    intro _ s s' out h
    rw [processEvents] at h
    simp only [Option.some.injEq, Prod.mk.injEq] at h
    obtain ⟨-, h2⟩ := h
    rw [← h2]
    intro c hcm
    exact absurd hcm (List.not_mem_nil c)
  | cons e rest ih =>
    intro hev s s' out h
    rw [processEvents] at h
    cases hstep : midi_callback args k s e with
    | none => rw [hstep] at h; exact Option.noConfusion h
    | some r =>
      obtain ⟨s1, notes, b⟩ := r
      rw [hstep] at h
      dsimp only at h
      cases hrest : processEvents args k s1 rest with
      | none => rw [hrest] at h; exact Option.noConfusion h
      | some r2 =>
        obtain ⟨s2, out2⟩ := r2
        rw [hrest] at h
        dsimp only at h
        simp only [Option.some.injEq, Prod.mk.injEq] at h
        obtain ⟨-, h2⟩ := h
        rw [← h2]
        intro c hcm
        rcases List.mem_append.mp hcm with hcm | hcm
        · obtain ⟨st, t⟩ := e
          have hst : st = MIDI_CLOCK := hev ⟨st, t⟩ (List.mem_cons_self _ _)
          subst hst
          exact midi_callback_clock_notes_nonzero hstep c hcm
        · exact ih (fun e' he' => hev e' (List.mem_cons_of_mem _ he')) s1 s2 out2 hrest c hcm

/-- A positive counter is `0 mod p` exactly when it is a positive multiple
of `p`. -/
theorem mod_eq_zero_iff_pos_mul {bc p : Nat} (hbc : 0 < bc) (_hp : 0 < p) :
    bc % p = 0 ↔ ∃ m, 0 < m ∧ bc = m * p := by
  constructor
  · intro h
    obtain ⟨m, hm⟩ := Nat.dvd_of_mod_eq_zero h
    refine ⟨m, ?_, by rw [hm, Nat.mul_comm]⟩
    rcases Nat.eq_zero_or_pos m with h0 | h0
    · subst h0
      rw [Nat.mul_zero] at hm
      omega
    · exact h0
  · rintro ⟨m, hm0, rfl⟩
    exact Nat.mul_mod_left m p

/-- Every period in `subRules` is positive. -/
theorem subRules_period_pos {args : Args} {p n : Nat}
    (h : (p, n) ∈ subRules args) : 0 < p := by
  simp only [subRules, List.mem_cons, Prod.mk.injEq, List.not_mem_nil, or_false] at h
  rcases h with ⟨h, -⟩ | ⟨h, -⟩ | ⟨h, -⟩ | ⟨h, -⟩ | ⟨h, -⟩ <;> omega

/-- One step only looks at the status byte and the two counters: the new
counters and the emitted notes (and whether the step raises) agree for any
two states that agree on the counters and any two events with the same
status byte, whatever the timestamps. -/
theorem midi_callback_status_bisim (args : Args) (k : Nat)
    (s1 s2 : EngineState) (e1 e2 : Event)
    (hcc : s1.clock_count = s2.clock_count) (hbc : s1.bar_count = s2.bar_count)
    (hst : e1.status = e2.status) :
    Option.map (fun r => (r.1.clock_count, r.1.bar_count, r.2.1))
      (midi_callback args k s1 e1)
    = Option.map (fun r => (r.1.clock_count, r.1.bar_count, r.2.1))
      (midi_callback args k s2 e2) := by
  by_cases hc : e2.status = MIDI_CLOCK
  · simp only [midi_callback, hst, hc, if_pos, hcc, hbc]
    cases hpm : pymod (s2.clock_count + 1) k with
    | none => rfl
    | some r =>
      by_cases hr : r = 0
      · subst hr
        cases hbn : boundaryNotes args (s2.bar_count + 1) with
        | none => rfl
        | some l => simp
      · simp [hr]
  · rw [midi_callback_nonclock args k s1 e1 (by rw [hst]; exact hc),
      midi_callback_nonclock args k s2 e2 hc, hst]
    simp [hcc, hbc]

/-- The whole note trace of a run depends only on the status-byte
sequence: two runs from counter-equal states over status-equal event lists
succeed together and emit the same notes. -/
theorem processEvents_status_bisim (args : Args) (k : Nat) :
    ∀ (evs1 evs2 : List Event) (s1 s2 : EngineState),
      evs1.map Event.status = evs2.map Event.status →
      s1.clock_count = s2.clock_count → s1.bar_count = s2.bar_count →
      Option.map (fun r => r.2.notes) (processEvents args k s1 evs1)
      = Option.map (fun r => r.2.notes) (processEvents args k s2 evs2) := by
  intro evs1
  induction evs1 with
  | nil =>
    intro evs2 s1 s2 hmap _ _
    cases evs2 with
    | nil => simp [processEvents]
    | cons e rest => simp at hmap
  | cons e1 rest1 ih =>
    intro evs2 s1 s2 hmap hcc hbc
    cases evs2 with
    | nil => simp at hmap
    | cons e2 rest2 =>
      simp only [List.map_cons, List.cons.injEq] at hmap
      obtain ⟨hst, hrest⟩ := hmap
      rw [processEvents, processEvents]
      have hbisim := midi_callback_status_bisim args k s1 s2 e1 e2 hcc hbc hst
      cases h1 : midi_callback args k s1 e1 with
      | none =>
        rw [h1] at hbisim
        cases h2 : midi_callback args k s2 e2 with
        | none => rfl
        | some r2 =>
          rw [h2] at hbisim
          simp at hbisim
      | some r1 =>
        obtain ⟨s1', notes1, b1⟩ := r1
        rw [h1] at hbisim
        cases h2 : midi_callback args k s2 e2 with
        | none =>
          rw [h2] at hbisim
          simp at hbisim
        | some r2 =>
          obtain ⟨s2', notes2, b2⟩ := r2
          rw [h2] at hbisim
          simp only [Option.map_some', Option.some.injEq, Prod.mk.injEq] at hbisim
          obtain ⟨hcc', hbc', hnotes⟩ := hbisim
          dsimp only
          have ihr := ih rest2 s1' s2' hrest hcc' hbc'
          cases hr1 : processEvents args k s1' rest1 with
          | none =>
            rw [hr1] at ihr
            cases hr2 : processEvents args k s2' rest2 with
            | none => rfl
            | some rr2 =>
              rw [hr2] at ihr
              simp at ihr
          | some rr1 =>
            obtain ⟨s1'', out1⟩ := rr1
            rw [hr1] at ihr
            cases hr2 : processEvents args k s2' rest2 with
            | none =>
              rw [hr2] at ihr
              simp at ihr
            | some rr2 =>
              obtain ⟨s2'', out2⟩ := rr2
              rw [hr2] at ihr
              simp only [Option.map_some', Option.some.injEq] at ihr
              simp only [Option.map_some', Option.some.injEq]
              rw [hnotes, ihr]

end MidiClockedNotes

namespace MidiClockedNotes

/-! ### The claims -/

/-- C1 (amended): processing never raises a division error — for any
configuration, any state (any clock count, including 0) and any event —
provided `clocks_per_bar ≠ 0` and the primary rule is disabled by its
note number (`note = 0`) or has a nonzero period (`notes_per_bar ≠ 0`).
The code guards each subdivision on its note number, not on its period:
with `notes_per_bar = 0` and `note ≠ 0` a bar boundary does evaluate a
modulus by zero (see the counterexample). -/
theorem C1_no_division_error (args : Args) (k : Nat) (s : EngineState)
    (e : Event) (hk : k ≠ 0) (hok : args.note = 0 ∨ args.notes_per_bar ≠ 0) :
    midi_callback args k s e ≠ none := by
  obtain ⟨st, t⟩ := e
  by_cases hc : st = MIDI_CLOCK
  · subst hc
    rw [midi_callback_clock_eq args k s t hk hok]
    simp
  · rw [midi_callback_nonclock args k s ⟨st, t⟩ hc]
    simp

/-- C1 counterexample: with `notes_per_bar = 0` and the primary note
enabled (`note = 60`, `cfgCrash`) and `clocks_per_bar = 1`, the very first
Clock event is a bar boundary and evaluating `bar_count % notes_per_bar`
divides by zero: the step raises (`none`), refuting the claim that a
configured period of 0 is guarded before any modulus operation. -/
theorem C1_counterexample :
    midi_callback cfgCrash 1 initState ⟨MIDI_CLOCK, 0⟩ = none := by decide

/-- Witness for `C1_no_division_error` at a concrete input. -/
theorem C1_witness :
    ((4 : Nat) ≠ 0 ∧ (cfgBpm.note = 0 ∨ cfgBpm.notes_per_bar ≠ 0))
    ∧ midi_callback cfgBpm 4 initState ⟨MIDI_CLOCK, 0⟩ ≠ none :=
  ⟨⟨by decide, Or.inl (by decide)⟩,
   C1_no_division_error cfgBpm 4 initState ⟨MIDI_CLOCK, 0⟩ (by decide)
     (Or.inl (by decide))⟩

/-- C2: on any successful Clock step, the emitted list decomposes into the
per-rule contributions; an enabled fixed subdivision `(p, n)` contributes
a note exactly when the step is a bar boundary and the resulting
`bar_count` is a positive multiple of `p` (for `p = 1` that is every bar
boundary); a disabled one (note `n = 0`) never contributes; likewise the
primary `(notes_per_bar, note)` rule. -/
theorem C2_subdivision_iff (args : Args) (k : Nat) (s s' : EngineState)
    (t : ℚ) (notes : List NoteCommand) (b : Option ℚ) (hk : k ≠ 0)
    (hstep : midi_callback args k s ⟨MIDI_CLOCK, t⟩ = some (s', notes, b)) :
    notes = primStepEmit args k s
      ++ (subRules args).flatMap (fun pn => subStepEmit args k s pn.1 pn.2)
    ∧ (∀ p n, (p, n) ∈ subRules args →
        (subStepEmit args k s p n ≠ [] ↔
          n ≠ 0 ∧ s'.clock_count % k = 0 ∧ ∃ m, 0 < m ∧ s'.bar_count = m * p))
    ∧ (∀ p n, (p, n) ∈ subRules args → n = 0 → subStepEmit args k s p n = [])
    ∧ (args.note = 0 → primStepEmit args k s = [])
    ∧ (args.note ≠ 0 →
        (primStepEmit args k s ≠ [] ↔
          s'.clock_count % k = 0
          ∧ ∃ m, 0 < m ∧ s'.bar_count = m * args.notes_per_bar)) := by
  obtain ⟨hcc, -, -, hcase⟩ := midi_callback_clock_inv hk hstep
  have hbnd : ((s.clock_count + 1) % k = 0 ∧ s'.bar_count = s.bar_count + 1)
      ∨ ((s.clock_count + 1) % k ≠ 0 ∧ s'.bar_count = s.bar_count) := by
    rcases hcase with ⟨h1, h2, -⟩ | ⟨h1, h2, -⟩
    · exact Or.inl ⟨h1, h2⟩
    · exact Or.inr ⟨h1, h2⟩
  refine ⟨midi_callback_clock_notes hk hstep, ?_, ?_, ?_, ?_⟩
  · intro p n hpn
    have hp : 0 < p := subRules_period_pos hpn
    rcases hbnd with ⟨hb, hbar⟩ | ⟨hb, hbar⟩
    · have hsub : subStepEmit args k s p n
          = subEmit args.midi_channel (s.bar_count + 1) p n := by
        rw [subStepEmit, if_pos hb]
      rw [hsub, subEmit]
      by_cases hif : n ≠ 0 ∧ (s.bar_count + 1) % p = 0
      · rw [if_pos hif]
        constructor
        · intro _
          obtain ⟨m, hm0, hmul⟩ :=
            (mod_eq_zero_iff_pos_mul (Nat.succ_pos _) hp).mp hif.2
          exact ⟨hif.1, by rw [hcc]; exact hb, m, hm0, by rw [hbar]; exact hmul⟩
        · intro _
          simp
      · rw [if_neg hif]
        constructor
        · intro hne
          exact absurd rfl hne
        · rintro ⟨hn0, -, m, hm0, hmul⟩
          exfalso
          apply hif
          refine ⟨hn0, ?_⟩
          have hbc1 : s.bar_count + 1 = m * p := by rw [← hbar]; exact hmul
          rw [hbc1]
          exact Nat.mul_mod_left m p
    · have hsub : subStepEmit args k s p n = [] := by
        rw [subStepEmit, if_neg hb]
      rw [hsub]
      constructor
      · intro hne
        exact absurd rfl hne
      · rintro ⟨-, hck, -⟩
        exfalso
        apply hb
        rw [← hcc]
        exact hck
  · intro p n _ hn
    simp [subStepEmit, subEmit, hn]
  · intro h0
    simp [primStepEmit, primEmit, h0]
  · intro hnote
    rcases hbnd with ⟨hb, hbar⟩ | ⟨hb, hbar⟩
    · have hsub : primStepEmit args k s = primEmit args (s.bar_count + 1) := by
        rw [primStepEmit, if_pos hb]
      rw [hsub, primEmit]
      by_cases hif : args.note ≠ 0 ∧ args.notes_per_bar ≠ 0
          ∧ (s.bar_count + 1) % args.notes_per_bar = 0
      · rw [if_pos hif]
        constructor
        · intro _
          obtain ⟨m, hm0, hmul⟩ := (mod_eq_zero_iff_pos_mul (Nat.succ_pos _)
            (Nat.pos_of_ne_zero hif.2.1)).mp hif.2.2
          exact ⟨by rw [hcc]; exact hb, m, hm0, by rw [hbar]; exact hmul⟩
        · intro _
          simp
      · rw [if_neg hif]
        constructor
        · intro hne
          exact absurd rfl hne
        · rintro ⟨-, m, hm0, hmul⟩
          exfalso
          apply hif
          have hbc1 : s.bar_count + 1 = m * args.notes_per_bar := by
            rw [← hbar]
            exact hmul
          have hnpb : args.notes_per_bar ≠ 0 := by
            intro h0
            rw [h0, Nat.mul_zero] at hbc1
            omega
          refine ⟨hnote, hnpb, ?_⟩
          rw [hbc1]
          exact Nat.mul_mod_left m args.notes_per_bar
    · have hsub : primStepEmit args k s = [] := by
        rw [primStepEmit, if_neg hb]
      rw [hsub]
      constructor
      · intro hne
        exact absurd rfl hne
      · rintro ⟨hck, -⟩
        exfalso
        apply hb
        rw [← hcc]
        exact hck

/-- Witness for `C2_subdivision_iff` at a concrete input. -/
theorem C2_witness :
    ((1 : Nat) ≠ 0
      ∧ midi_callback cfgA 1 initState ⟨MIDI_CLOCK, 0⟩
          = some (⟨1, 1, none⟩, [send_note_on 10 100 15], none))
    ∧ (subStepEmit cfgA 1 initState 1 10 ≠ [] ↔
        (10 : Nat) ≠ 0
        ∧ (⟨1, 1, none⟩ : EngineState).clock_count % 1 = 0
        ∧ ∃ m, 0 < m ∧ (⟨1, 1, none⟩ : EngineState).bar_count = m * 1) :=
  ⟨⟨by decide, by decide⟩,
   (C2_subdivision_iff cfgA 1 initState ⟨1, 1, none⟩ 0
       [send_note_on 10 100 15] none (by decide) (by decide)).2.1 1 10
     (by simp [subRules, cfgA])⟩

end MidiClockedNotes

namespace MidiClockedNotes

/-- C3: with `clocks_per_bar = k ≥ 1`, after any successful run from the
initial state, `bar_count = clock_count / k` and `clock_count` is the
number of Clock events processed; per step, a Clock event increments
`clock_count` by one and increments `bar_count` exactly when the new
`clock_count` is `0 mod k`, while no other event changes either counter. -/
theorem C3_bar_counting (args : Args) (k : Nat) (events : List Event)
    (s' : EngineState) (out : RunOut) (hk : 1 ≤ k)
    (h : processEvents args k initState events = some (s', out)) :
    s'.bar_count = s'.clock_count / k
    ∧ s'.clock_count = countClocks events
    ∧ (∀ (s2 s3 : EngineState) (e : Event) (notes : List NoteCommand)
          (b : Option ℚ),
        midi_callback args k s2 e = some (s3, notes, b) →
          (e.status = MIDI_CLOCK →
            s3.clock_count = s2.clock_count + 1
            ∧ s3.bar_count =
                (if s3.clock_count % k = 0 then s2.bar_count + 1
                 else s2.bar_count))
          ∧ (e.status ≠ MIDI_CLOCK →
              s3.clock_count = s2.clock_count
              ∧ s3.bar_count = s2.bar_count)) := by
  have hk' : k ≠ 0 := by omega
  obtain ⟨hcount, hinv⟩ := processEvents_counters args k hk' events initState s' out h
  refine ⟨hinv (by simp [initState]), by simpa [initState] using hcount, ?_⟩
  intro s2 s3 e notes b hstep
  constructor
  · intro hc
    obtain ⟨st, t⟩ := e
    have hst : st = MIDI_CLOCK := hc
    subst hst
    obtain ⟨hcc, -, -, hcase⟩ := midi_callback_clock_inv hk' hstep
    refine ⟨hcc, ?_⟩
    rcases hcase with ⟨hb, hbar, -⟩ | ⟨hb, hbar, -⟩
    · rw [hbar, if_pos (by rw [hcc]; exact hb)]
    · rw [hbar, if_neg (by rw [hcc]; exact hb)]
  · intro hc
    rw [midi_callback_nonclock args k s2 e hc] at hstep
    simp only [Option.some.injEq, Prod.mk.injEq] at hstep
    obtain ⟨h1, -, -⟩ := hstep
    rw [← h1]
    exact ⟨rfl, rfl⟩

/-- Witness for `C3_bar_counting` at a concrete input. -/
theorem C3_witness :
    ((1 : Nat) ≤ 2
      ∧ processEvents cfgA 2 initState
          [⟨MIDI_CLOCK, 0⟩, ⟨MIDI_START, 0⟩, ⟨MIDI_CLOCK, 0⟩]
        = some (⟨2, 1, none⟩,
            ⟨[send_note_on 30 100 15, send_note_on 10 100 15], []⟩))
    ∧ (⟨2, 1, none⟩ : EngineState).bar_count
        = (⟨2, 1, none⟩ : EngineState).clock_count / 2
    ∧ (⟨2, 1, none⟩ : EngineState).clock_count
        = countClocks [⟨MIDI_CLOCK, 0⟩, ⟨MIDI_START, 0⟩, ⟨MIDI_CLOCK, 0⟩] :=
  ⟨⟨by decide, by decide⟩,
   (C3_bar_counting cfgA 2 [⟨MIDI_CLOCK, 0⟩, ⟨MIDI_START, 0⟩, ⟨MIDI_CLOCK, 0⟩]
       ⟨2, 1, none⟩ ⟨[send_note_on 30 100 15, send_note_on 10 100 15], []⟩
       (by decide) (by decide)).1,
   (C3_bar_counting cfgA 2 [⟨MIDI_CLOCK, 0⟩, ⟨MIDI_START, 0⟩, ⟨MIDI_CLOCK, 0⟩]
       ⟨2, 1, none⟩ ⟨[send_note_on 30 100 15, send_note_on 10 100 15], []⟩
       (by decide) (by decide)).2.1⟩

/-- C4: on a bar boundary, the emitted list is exactly the primary rule's
contribution followed by the five fixed subdivisions' contributions taken
in strictly increasing period order 1, 2, 4, 8, 16; every qualifying
rule's note is in the emitted list (additive, no suppression). -/
theorem C4_additive_order (args : Args) (k : Nat) (s s' : EngineState)
    (t : ℚ) (notes : List NoteCommand) (b : Option ℚ) (hk : k ≠ 0)
    (hstep : midi_callback args k s ⟨MIDI_CLOCK, t⟩ = some (s', notes, b))
    (_hb : (s.clock_count + 1) % k = 0) :
    notes = primStepEmit args k s
      ++ (subRules args).flatMap (fun pn => subStepEmit args k s pn.1 pn.2)
    ∧ (subRules args).map Prod.fst = [1, 2, 4, 8, 16]
    ∧ List.Chain' (· < ·) ((subRules args).map Prod.fst)
    ∧ (∀ c ∈ primStepEmit args k s, c ∈ notes)
    ∧ (∀ pn ∈ subRules args, ∀ c ∈ subStepEmit args k s pn.1 pn.2, c ∈ notes) := by
  have hdecomp := midi_callback_clock_notes hk hstep
  have hmap : (subRules args).map Prod.fst = [1, 2, 4, 8, 16] := by
    simp [subRules]
  refine ⟨hdecomp, hmap, ?_, ?_, ?_⟩
  · rw [hmap]
    norm_num [List.chain'_cons]
  · intro c hc
    rw [hdecomp]
    exact List.mem_append_left _ hc
  · intro pn hpn c hc
    rw [hdecomp]
    exact List.mem_append_right _ (List.mem_flatMap.mpr ⟨pn, hpn, hc⟩)

/-- Witness for `C4_additive_order` at a concrete input. -/
theorem C4_witness :
    ((1 : Nat) ≠ 0
      ∧ midi_callback cfgA 1 initState ⟨MIDI_CLOCK, 0⟩
          = some (⟨1, 1, none⟩, [send_note_on 10 100 15], none)
      ∧ (initState.clock_count + 1) % 1 = 0)
    ∧ (subRules cfgA).map Prod.fst = [1, 2, 4, 8, 16]
    ∧ ∀ c ∈ subStepEmit cfgA 1 initState 1 10, c ∈ [send_note_on 10 100 15] :=
  ⟨⟨by decide, by decide, by decide⟩,
   (C4_additive_order cfgA 1 initState ⟨1, 1, none⟩ 0 [send_note_on 10 100 15]
       none (by decide) (by decide) (by decide)).2.1,
   (C4_additive_order cfgA 1 initState ⟨1, 1, none⟩ 0 [send_note_on 10 100 15]
       none (by decide) (by decide) (by decide)).2.2.2.2 (1, 10)
     (by simp [subRules, cfgA])⟩

/-- C5: from any state, a Start event emits exactly the one note
`note_start` and a Stop event exactly the one note `note_stop`, at
velocity 100 on the configured channel, and the state (both counters and
`last_clock_time`) is returned unchanged. -/
theorem C5_start_stop (args : Args) (k : Nat) (s : EngineState) (t : ℚ) :
    midi_callback args k s ⟨MIDI_START, t⟩
      = some (s, [send_note_on args.note_start 100 args.midi_channel], none)
    ∧ midi_callback args k s ⟨MIDI_STOP, t⟩
      = some (s, [send_note_on args.note_stop 100 args.midi_channel], none) :=
  ⟨midi_callback_start args k s t, midi_callback_stop args k s t⟩

/-- C6: the decoder constants are 0xF8/0xFA/0xFC for Clock/Start/Stop;
0xF8 drives the clock branch (incrementing `clock_count` on success),
0xFA and 0xFC emit the start/stop notes, and any other status byte leaves
the state unchanged, emits nothing, prints nothing and raises nothing. -/
theorem C6_transport_decode (args : Args) (k : Nat) (s : EngineState)
    (t : ℚ) (status : Nat) :
    (MIDI_CLOCK = 0xF8 ∧ MIDI_START = 0xFA ∧ MIDI_STOP = 0xFC)
    ∧ (∀ r, midi_callback args k s ⟨0xF8, t⟩ = some r →
        r.1.clock_count = s.clock_count + 1)
    ∧ midi_callback args k s ⟨0xFA, t⟩
        = some (s, [send_note_on args.note_start 100 args.midi_channel], none)
    ∧ midi_callback args k s ⟨0xFC, t⟩
        = some (s, [send_note_on args.note_stop 100 args.midi_channel], none)
    ∧ (status ≠ 0xF8 → status ≠ 0xFA → status ≠ 0xFC →
        midi_callback args k s ⟨status, t⟩ = some (s, [], none)) := by
  refine ⟨⟨rfl, rfl, rfl⟩, ?_, ?_, ?_, ?_⟩
  · intro r hr
    by_cases hk : k = 0
    · subst hk
      simp [midi_callback, pymod, MIDI_CLOCK] at hr
    · obtain ⟨s', notes, b⟩ := r
      have h8 : (⟨(0xF8 : Nat), t⟩ : Event) = ⟨MIDI_CLOCK, t⟩ := rfl
      rw [h8] at hr
      exact (midi_callback_clock_inv hk hr).1
  · have ha : (⟨(0xFA : Nat), t⟩ : Event) = ⟨MIDI_START, t⟩ := rfl
    rw [ha]
    exact midi_callback_start args k s t
  · have hc : (⟨(0xFC : Nat), t⟩ : Event) = ⟨MIDI_STOP, t⟩ := rfl
    rw [hc]
    exact midi_callback_stop args k s t
  · intro h1 h2 h3
    exact midi_callback_other args k s ⟨status, t⟩
      (by simpa [MIDI_CLOCK] using h1) (by simpa [MIDI_START] using h2)
      (by simpa [MIDI_STOP] using h3)

/-- Witness for `C6_transport_decode` at a concrete input. -/
theorem C6_witness :
    ((0x42 : Nat) ≠ 0xF8 ∧ (0x42 : Nat) ≠ 0xFA ∧ (0x42 : Nat) ≠ 0xFC)
    ∧ midi_callback cfgA 4 initState ⟨0x42, 0⟩ = some (initState, [], none) :=
  ⟨⟨by decide, by decide, by decide⟩,
   (C6_transport_decode cfgA 4 initState 0 0x42).2.2.2.2
     (by decide) (by decide) (by decide)⟩

/-- C7: the note emitter builds exactly the 3-byte message
`[0x90 ||| ((channel - 1) &&& 0x0F), note, velocity]`, and on any run
every emitted command carries velocity 100 and the status byte derived
from the configured channel. -/
theorem C7_note_emitter (args : Args) (k : Nat) :
    (∀ note velocity channel : Nat, 1 ≤ channel →
      send_note_on note velocity channel =
        { status := 0x90 ||| ((channel - 1) &&& 0x0F), note := note,
          velocity := velocity })
    ∧ (∀ (events : List Event) (s' : EngineState) (out : RunOut),
        processEvents args k initState events = some (s', out) →
        ∀ c ∈ out.notes, c.velocity = 100
          ∧ c.status = 0x90 ||| ((args.midi_channel - 1) &&& 0x0F)) := by
  constructor
  · intro note velocity channel _
    rfl
  · intro events s' out h c hc
    obtain ⟨m, hm⟩ :=
      processEvents_notes_shape args k events initState s' out h c hc
    rw [hm]
    exact ⟨rfl, rfl⟩

/-- Witness for `C7_note_emitter` at a concrete input. -/
theorem C7_witness :
    ((1 : Nat) ≤ 15 ∧ send_note_on 60 100 15 = ⟨158, 60, 100⟩)
    ∧ (processEvents cfgA 4 initState [⟨MIDI_START, 0⟩]
        = some (initState, ⟨[send_note_on 30 100 15], []⟩)
      ∧ (send_note_on 30 100 15).velocity = 100
      ∧ (send_note_on 30 100 15).status
          = 0x90 ||| ((cfgA.midi_channel - 1) &&& 0x0F)) :=
  ⟨⟨by decide, (C7_note_emitter cfgA 4).1 60 100 15 (by decide)⟩,
   by decide,
   (C7_note_emitter cfgA 4).2 [⟨MIDI_START, 0⟩] initState
     ⟨[send_note_on 30 100 15], []⟩ (by decide) (send_note_on 30 100 15)
     (by simp)⟩

end MidiClockedNotes

namespace MidiClockedNotes

/-- C8 (amended): with BPM display enabled, a successful Clock step at
timestamp `t` stores `t` as the new `last_clock_time`; it reports
`60 / (delta * 24)` when a previous timestamp exists, is nonzero, and
`delta = t - t0` is positive (in particular `delta = 1/2` reports 5);
reports 0 (without crashing) when the nonzero previous timestamp gives a
non-positive delta; and reports nothing on the first Clock event.  The
amendment: the code's presence test is Python truthiness, so a stored
previous timestamp equal to 0 is treated as absent (see the
counterexample). -/
theorem C8_bpm_report (args : Args) (k : Nat) (s s' : EngineState) (t : ℚ)
    (notes : List NoteCommand) (b : Option ℚ)
    (hshow : args.show_bpm = true)
    (hstep : midi_callback args k s ⟨MIDI_CLOCK, t⟩ = some (s', notes, b)) :
    s'.last_clock_time = some t
    ∧ (s.last_clock_time = none → b = none)
    ∧ (∀ t0, s.last_clock_time = some t0 → t0 ≠ 0 → 0 < t - t0 →
        b = some (60 / ((t - t0) * 24)))
    ∧ (∀ t0, s.last_clock_time = some t0 → t0 ≠ 0 → ¬ 0 < t - t0 →
        b = some 0)
    ∧ (∀ t0, s.last_clock_time = some t0 → t0 ≠ 0 → t - t0 = 1/2 →
        b = some 5) := by
  have hk : k ≠ 0 := by
    intro h0
    subst h0
    simp [midi_callback, pymod, MIDI_CLOCK] at hstep
  obtain ⟨-, hlct, hbpm, -⟩ := midi_callback_clock_inv hk hstep
  simp only [hshow, if_true] at hlct hbpm
  refine ⟨hlct, ?_, ?_, ?_, ?_⟩
  · intro h0
    rw [hbpm, h0, bpmPrint]
  · intro t0 h0 ht0 hpos
    rw [hbpm, h0]
    simp only [bpmPrint, if_neg ht0]
    rw [if_pos hpos]
  · intro t0 h0 ht0 hnpos
    rw [hbpm, h0]
    simp only [bpmPrint, if_neg ht0]
    rw [if_neg hnpos]
  · intro t0 h0 ht0 hhalf
    have hpos : (0 : ℚ) < t - t0 := by
      rw [hhalf]
      norm_num
    rw [hbpm, h0]
    simp only [bpmPrint, if_neg ht0]
    rw [if_pos hpos, hhalf]
    norm_num

/-- C8 counterexample: feed two Clock events at timestamps 0 and 1/2 with
BPM display on.  At the second event a previous timestamp (0) exists and
the delta 1/2 is positive, so the claim demands a report of
`60 / (1/2 · 24) = 5`; but the code's truthiness test treats the stored
0 as absent and nothing is reported. -/
theorem C8_counterexample :
    processEvents cfgBpm 4 initState [⟨MIDI_CLOCK, 0⟩, ⟨MIDI_CLOCK, 1/2⟩]
      = some (⟨2, 0, some (1/2)⟩, ⟨[], []⟩)
    ∧ (0 : ℚ) < 1/2 - 0
    ∧ ([] : List ℚ) ≠ [60 / (((1 : ℚ)/2 - 0) * 24)] :=
  ⟨by rfl, by norm_num, by simp⟩

/-- Witness for `C8_bpm_report` at a concrete input. -/
theorem C8_witness :
    (cfgBpm.show_bpm = true
      ∧ midi_callback cfgBpm 4 ⟨0, 0, some 3⟩ ⟨MIDI_CLOCK, 7/2⟩
          = some (⟨1, 0, some (7/2)⟩, [], some (60 / ((7/2 - 3) * 24))))
    ∧ some (60 / (((7 : ℚ)/2 - 3) * 24)) = some (5 : ℚ) := by
  have hstep : midi_callback cfgBpm 4 ⟨0, 0, some 3⟩ ⟨MIDI_CLOCK, 7/2⟩
      = some (⟨1, 0, some (7/2)⟩, [], some (60 / ((7/2 - 3) * 24))) := by
    norm_num [midi_callback, pymod, MIDI_CLOCK, bpmPrint, cfgBpm]
  exact ⟨⟨rfl, hstep⟩,
    (C8_bpm_report cfgBpm 4 ⟨0, 0, some 3⟩ ⟨1, 0, some (7/2)⟩ (7/2) []
        (some (60 / ((7/2 - 3) * 24))) rfl hstep).2.2.2.2 3 rfl
      (by norm_num) (by norm_num)⟩

/-- C9: the emitted note sequence of a run is a deterministic function of
the configuration and the status-byte sequence alone: two runs over event
lists with the same statuses (timestamps free) produce the same notes and
succeed or fail together. -/
theorem C9_deterministic (args : Args) (k : Nat) (evs1 evs2 : List Event)
    (h : evs1.map Event.status = evs2.map Event.status) :
    Option.map (fun r => r.2.notes) (processEvents args k initState evs1)
    = Option.map (fun r => r.2.notes) (processEvents args k initState evs2) :=
  processEvents_status_bisim args k evs1 evs2 initState initState h rfl rfl

/-- Witness for `C9_deterministic` at a concrete input. -/
theorem C9_witness :
    ([⟨MIDI_CLOCK, 0⟩, ⟨MIDI_START, 1⟩] : List Event).map Event.status
      = ([⟨MIDI_CLOCK, 5⟩, ⟨MIDI_START, 7⟩] : List Event).map Event.status
    ∧ Option.map (fun r => r.2.notes)
        (processEvents cfgA 4 initState [⟨MIDI_CLOCK, 0⟩, ⟨MIDI_START, 1⟩])
      = Option.map (fun r => r.2.notes)
        (processEvents cfgA 4 initState [⟨MIDI_CLOCK, 5⟩, ⟨MIDI_START, 7⟩]) :=
  ⟨by decide,
   C9_deterministic cfgA 4 [⟨MIDI_CLOCK, 0⟩, ⟨MIDI_START, 1⟩]
     [⟨MIDI_CLOCK, 5⟩, ⟨MIDI_START, 7⟩] (by decide)⟩

/-- C10: a subdivision slot is disabled by a zero note number (a note of 0
contributes nothing at any state), and consequently a run made only of
Clock events never emits note number 0. -/
theorem C10_disabled_by_note_number (args : Args) (k : Nat)
    (events : List Event) (s' : EngineState) (out : RunOut)
    (hev : ∀ e ∈ events, e.status = MIDI_CLOCK)
    (h : processEvents args k initState events = some (s', out)) :
    (∀ c ∈ out.notes, c.note ≠ 0)
    ∧ (∀ p n, (p, n) ∈ subRules args → n = 0 →
        ∀ s2 : EngineState, subStepEmit args k s2 p n = []) := by
  refine ⟨processEvents_clock_notes_nonzero args k events hev initState s' out h, ?_⟩
  intro p n _ hn s2
  simp [subStepEmit, subEmit, hn]

/-- Witness for `C10_disabled_by_note_number` at a concrete input. -/
theorem C10_witness :
    ((∀ e ∈ ([⟨MIDI_CLOCK, 0⟩] : List Event), e.status = MIDI_CLOCK)
      ∧ processEvents cfgA 1 initState [⟨MIDI_CLOCK, 0⟩]
          = some (⟨1, 1, none⟩, ⟨[send_note_on 10 100 15], []⟩))
    ∧ (send_note_on 10 100 15).note ≠ 0 :=
  ⟨⟨by decide, by decide⟩,
   (C10_disabled_by_note_number cfgA 1 [⟨MIDI_CLOCK, 0⟩] ⟨1, 1, none⟩
       ⟨[send_note_on 10 100 15], []⟩ (by decide) (by decide)).1
     (send_note_on 10 100 15) (by simp)⟩

end MidiClockedNotes
